import Mathlib

/-!
Verification of the concurrent-collections library (Rust sources under
`src/rcu/mod.rs`, `src/semaphore/mod.rs`, `src/stack/mod.rs`) against its
natural-language specification.

The three primitives are embedded shallowly as pure state transformers over
explicit state records, with single-threaded sequential semantics: each Lean
function models one *completed* call of the corresponding Rust method.
Blocking that cannot complete (a `wait` on a zero count with no other thread
to signal) and fatal assertion failures (`assert!` panics) are modeled as
`none` in an `Option`-valued result; the doc comment of each definition says
which.  Machine counters (`u32`, `usize`) are modeled as `Nat`: the code only
ever decrements positive counters and the `signal` path asserts
`count < max_count` before incrementing, so no wraparound is reachable.
-/

/-! ## Semaphore (src/semaphore/mod.rs) -/

/-- State of `InnerSemaphore`: `count: AtomicU32`, `ref_count: AtomicUsize`,
`max_count: u32`, in source field order. -/
structure InnerSemaphore where
  count : Nat
  ref_count : Nat
  max_count : Nat
deriving DecidableEq, Repr

/-- `InnerSemaphore::new(max_count)`: count starts at `max_count`, refcount 1. -/
def InnerSemaphore.new (max_count : Nat) : InnerSemaphore :=
  { count := max_count, ref_count := 1, max_count := max_count }

/-- `InnerSemaphore::init_with(max_count, init_val)`: count starts at
`init_val`, refcount 1. -/
def InnerSemaphore.init_with (max_count init_val : Nat) : InnerSemaphore :=
  { count := init_val, ref_count := 1, max_count := max_count }

/-- `InnerSemaphore::wait`: the CAS loop claims one unit once the count is
positive.  Single-threaded there is no other thread to signal, so a zero
count means the call blocks forever: modeled as `none`.  A completed call
decrements the count by one. -/
def InnerSemaphore.wait (s : InnerSemaphore) : Option InnerSemaphore :=
  if s.count = 0 then none
  else some { s with count := s.count - 1 }

/-- `InnerSemaphore::signal`: asserts `cur_count < max_count` on the loaded
count (panic modeled as `none`), then the CAS loop adds one unit. -/
def InnerSemaphore.signal (s : InnerSemaphore) : Option InnerSemaphore :=
  if s.count < s.max_count then some { s with count := s.count + 1 }
  else none

/-- `Semaphore::new(max_count)`: asserts `max_count > 0` (panic modeled as
`none`), then allocates the inner state. -/
def Semaphore.new (max_count : Nat) : Option InnerSemaphore :=
  if 0 < max_count then some (InnerSemaphore.new max_count) else none

/-- `Semaphore::init_with(max_count, init_count)`: asserts `max_count > 0`
and `init_count <= max_count` (panics modeled as `none`), then allocates. -/
def Semaphore.init_with (max_count init_count : Nat) : Option InnerSemaphore :=
  if 0 < max_count then
    if init_count ≤ max_count then
      some (InnerSemaphore.init_with max_count init_count)
    else none
  else none

/-- A semaphore operation: one `wait()` or one `signal()` call. -/
inductive SemOp where
  | wait
  | signal
deriving DecidableEq, Repr

/-- One completed semaphore operation. -/
def semStep (s : InnerSemaphore) : SemOp → Option InnerSemaphore
  | SemOp.wait => s.wait
  | SemOp.signal => s.signal

/-- A sequence of completed semaphore operations; `none` as soon as one
blocks forever or panics. -/
def semRun (s : InnerSemaphore) : List SemOp → Option InnerSemaphore
  | [] => some s
  | op :: ops =>
    match semStep s op with
    | none => none
    | some t => semRun t ops

/-! ## Stack (src/stack/mod.rs) -/

/-- `StackNode<T>`: the payload `data: Option<T>`.  The intrusive `next`
pointer is represented by the node's position in the `head` chain below. -/
structure StackNode (T : Type) where
  data : Option T
deriving DecidableEq, Repr

/-- `StackNode::init_with(val)`: payload `Some(val)`. -/
def StackNode.init_with {T : Type} (val : T) : StackNode T :=
  { data := some val }

/-- State of `InnerStack<T>`: the `head` pointer chain as the list of nodes
reachable from `head`, the guarding semaphore, and the handle refcount. -/
structure InnerStack (T : Type) where
  head : List (StackNode T)
  sem : InnerSemaphore
  ref_count : Nat
deriving DecidableEq, Repr

/-- `InnerStack::new`: null head, binary semaphore `init_with(1, 1)`
(unlocked), refcount 1. -/
def InnerStack.new {T : Type} : InnerStack T :=
  { head := [], sem := InnerSemaphore.init_with 1 1, ref_count := 1 }

/-- `InnerStack::push(val)`: allocate a node holding `val`, acquire the
guard, link it as the new head, release the guard.  `none` if the guard
acquisition blocks forever or the release panics. -/
def InnerStack.push {T : Type} (s : InnerStack T) (val : T) : Option (InnerStack T) :=
  match s.sem.wait with
  | none => none
  | some g =>
    match g.signal with
    | none => none
    | some g2 => some { s with head := StackNode.init_with val :: s.head, sem := g2 }

/-- `InnerStack::pop`: acquire the guard; if the head is null, release and
return `None`; otherwise unlink the head node, take its payload, release the
guard, free the unlinked node, and return the payload.  The outer `Option`
is the completion of the call; the inner `Option T` is the Rust return
value (`None` = empty stack). -/
def InnerStack.pop {T : Type} (s : InnerStack T) : Option (Option T × InnerStack T) :=
  match s.sem.wait with
  | none => none
  | some g =>
    match s.head with
    | [] =>
      match g.signal with
      | none => none
      | some g2 => some (none, { s with sem := g2 })
    | nd :: rest =>
      match g.signal with
      | none => none
      | some g2 => some (nd.data, { s with head := rest, sem := g2 })

/-- A sequence of completed `push` calls, left to right. -/
def InnerStack.pushList {T : Type} (s : InnerStack T) : List T → Option (InnerStack T)
  | [] => some s
  | v :: vs =>
    match s.push v with
    | none => none
    | some t => t.pushList vs

/-- `n` completed `pop` calls, collecting the returned values in order. -/
def InnerStack.popAll {T : Type} : Nat → InnerStack T → Option (List (Option T))
  | 0, _ => some []
  | n + 1, s =>
    match s.pop with
    | none => none
    | some (v, t) =>
      match InnerStack.popAll n t with
      | none => none
      | some vs => some (v :: vs)

/-- The iterative teardown loop of `impl Drop for InnerStack`: walk the
chain from `head`, freeing (`drop_in_place`) each node once and advancing to
its `next`; the result counts the nodes freed.  Structural recursion on the
chain mirrors the loop's progress: each iteration shortens the remaining
chain by one, so the walk terminates for every finite chain. -/
def drainCount {T : Type} : List (StackNode T) → Nat
  | [] => 0
  | _ :: rest => drainCount rest + 1

/-- `impl Drop for InnerStack`: `assert_eq!(ref_count, 0)` (panic modeled as
`none`), then the iterative drain; returns the number of nodes freed. -/
def InnerStack.dropSelf {T : Type} (s : InnerStack T) : Option Nat :=
  if s.ref_count = 0 then some (drainCount s.head) else none

/-! ## VersionedCell (src/rcu/mod.rs) -/

/-- Phase constant `DEFAULT` (Idle). -/
def DEFAULT : Nat := 0

/-- Phase constant `NEW_EPOCH_INIT` (Initiated). -/
def NEW_EPOCH_INIT : Nat := 1

/-- Phase constant `NEW_EPOCH_COMMIT` (Committing). -/
def NEW_EPOCH_COMMIT : Nat := 2

/-- Phase constant `NEW_EPOCH_FINAL` (Finalized). -/
def NEW_EPOCH_FINAL : Nat := 3

/-- `InnerRcuNode<T>`: a refcounted cell holding at most one value
(`ref_count: AtomicUsize`, `data: Option<T>`). -/
structure InnerRcuNode (T : Type) where
  ref_count : Nat
  data : Option T
deriving DecidableEq, Repr

/-- `RcuNode::drop` applied to a node slot: `fetch_sub(1)` on the node's
refcount; if the decrement observes 1, the allocation is freed (`none`). -/
def dropNode {T : Type} : Option (InnerRcuNode T) → Option (InnerRcuNode T)
  | some n => if n.ref_count = 1 then none else some { n with ref_count := n.ref_count - 1 }
  | none => none

/-- `RcuNode::clone` applied to a node slot: `fetch_add(1)` on the node's
refcount. -/
def bumpNode {T : Type} : Option (InnerRcuNode T) → Option (InnerRcuNode T)
  | some n => some { n with ref_count := n.ref_count + 1 }
  | none => none

/-- State of `InnerRcu<T>` in source field order (`ref_count`, `num_reads`,
`state`, `cur_alloc`, `prev_alloc`), together with the allocator: `heap`
maps a `Nat` address to the node allocated there (`none` = freed or never
allocated) and `next_addr` is the next fresh address, so every `Box` created
by the code gets an address no live allocation uses. -/
structure InnerRcu (T : Type) where
  ref_count : Nat
  num_reads : Nat
  state : Nat
  cur_alloc : Nat
  prev_alloc : Nat
  heap : Nat → Option (InnerRcuNode T)
  next_addr : Nat

/-- `InnerRcu::new(data)`: one node (refcount 1, payload `Some(data)`) at a
fresh address; both generation pointers reference it; phase `DEFAULT`;
reader counter 0. -/
def InnerRcu.new {T : Type} (data : T) : InnerRcu T :=
  { ref_count := 1, num_reads := 0, state := DEFAULT,
    cur_alloc := 0, prev_alloc := 0,
    heap := fun a => if a = 0 then some { ref_count := 1, data := some data } else none,
    next_addr := 1 }

/-- One completed `InnerRcu::read` call, with the returned `RcuNode` then
consumed by the caller (its payload copied out, the temporary clone
dropped).  Steps of the source: `fetch_add(1)` on `num_reads`; load
`cur_alloc` and clone the node there; `fetch_sub(1)` on `num_reads`, and if
the decrement observes 1 while the phase CAS `INIT -> COMMIT` succeeds,
store phase `FINAL` and wake the writer.  The first component is the copied
payload (`none` only if the node's payload was already taken, which
`copy()` would turn into a panic). -/
def InnerRcu.read {T : Type} (s : InnerRcu T) : Option T × InnerRcu T :=
  let a := s.cur_alloc
  let heap1 := fun b => if b = a then bumpNode (s.heap b) else s.heap b
  let value := (s.heap a).bind (fun n => n.data)
  let observed := s.num_reads + 1
  let state1 := if observed = 1 ∧ s.state = NEW_EPOCH_INIT then NEW_EPOCH_FINAL else s.state
  let heap2 := fun b => if b = a then dropNode (heap1 b) else heap1 b
  (value, { s with num_reads := observed - 1, state := state1, heap := heap2 })

/-- One completed `InnerRcu::update` call.  Steps of the source: allocate a
fresh node `neo` holding `new_data`; load `prev_alloc`; CAS `cur_alloc` from
that snapshot to `neo`.  On success: store phase `INIT`, wait (if readers
were active) until the phase leaves `INIT`/`COMMIT`, store phase `DEFAULT`,
`drop_in_place` the superseded node, publish `prev_alloc := neo`, return
`Ok(())`.  On failure: take the value back out of the discarded node and
return it as `Err` (the node's box itself is never freed by the source, so
its slot keeps an empty node). -/
def InnerRcu.update {T : Type} (s : InnerRcu T) (new_data : T) : Except T Unit × InnerRcu T :=
  let neo := s.next_addr
  let heapA := fun b =>
    if b = neo then some { ref_count := 1, data := some new_data } else s.heap b
  let prev_ptr := s.prev_alloc
  if s.cur_alloc = prev_ptr then
    (Except.ok (),
      { s with
        state := DEFAULT,
        cur_alloc := neo,
        prev_alloc := neo,
        heap := fun b => if b = prev_ptr then dropNode (heapA b) else heapA b,
        next_addr := s.next_addr + 1 })
  else
    (Except.error new_data,
      { s with
        heap := fun b => if b = neo then some { ref_count := 1, data := none } else s.heap b,
        next_addr := s.next_addr + 1 })

/-- The cell state after a sequence of `update` calls, keeping each call's
post-state whether it succeeded or not. -/
def InnerRcu.runUpdates {T : Type} (s : InnerRcu T) : List T → InnerRcu T
  | [] => s
  | v :: vs => InnerRcu.runUpdates (s.update v).2 vs

/-- Every `update` call in the sequence succeeds (`Ok(())`). -/
def InnerRcu.updatesOk {T : Type} (s : InnerRcu T) : List T → Prop
  | [] => True
  | v :: vs => (s.update v).1 = Except.ok () ∧ InnerRcu.updatesOk (s.update v).2 vs

/-- The spec invariant for the cell: phase is `Idle` (`DEFAULT`) exactly
when the current pointer equals the settled-previous pointer. -/
def PhaseInv {T : Type} (s : InnerRcu T) : Prop :=
  s.state = DEFAULT ↔ s.cur_alloc = s.prev_alloc

/-- Quiescent single-threaded cell state holding the value `v`: no revision
pending, no reader inside the read path, the current node live with
refcount 1 and payload `v`, at an address below the allocation frontier. -/
def RcuReady {T : Type} (s : InnerRcu T) (v : T) : Prop :=
  s.cur_alloc = s.prev_alloc ∧ s.state = DEFAULT ∧ s.num_reads = 0 ∧
  s.cur_alloc < s.next_addr ∧
  s.heap s.cur_alloc = some { ref_count := 1, data := some v }

/-! ## Shared-handle refcounting (impl Clone / impl Drop for Semaphore) -/

/-- One primitive's shared state as seen by the handle discipline: the
heap-resident `InnerSemaphore` plus a count of how many times
`drop_in_place` has run on it. -/
structure SemaphoreShared where
  inner : InnerSemaphore
  destroyed : Nat
deriving DecidableEq, Repr

/-- `impl Clone for Semaphore`: `fetch_add(1, Relaxed)` on the shared
refcount; the new handle aliases the same state. -/
def SemaphoreShared.clone (s : SemaphoreShared) : SemaphoreShared :=
  { s with inner := { s.inner with ref_count := s.inner.ref_count + 1 } }

/-- `impl Drop for Semaphore`: `fetch_sub(1, Release)` on the shared
refcount; the release that observes the pre-decrement value 1 runs
`drop_in_place` on the shared state, and no other release does. -/
def SemaphoreShared.drop (s : SemaphoreShared) : SemaphoreShared :=
  if s.inner.ref_count = 1 then
    { inner := { s.inner with ref_count := 0 }, destroyed := s.destroyed + 1 }
  else
    { s with inner := { s.inner with ref_count := s.inner.ref_count - 1 } }

/-- `n` successive `clone` calls. -/
def SemaphoreShared.cloneN (s : SemaphoreShared) (n : Nat) : SemaphoreShared :=
  SemaphoreShared.clone^[n] s

/-- `n` successive handle releases. -/
def SemaphoreShared.dropN (s : SemaphoreShared) (n : Nat) : SemaphoreShared :=
  SemaphoreShared.drop^[n] s

/-- The shared state of a freshly constructed semaphore handle: refcount 1,
never destroyed. -/
def SemaphoreShared.init (max_count : Nat) : SemaphoreShared :=
  { inner := InnerSemaphore.new max_count, destroyed := 0 }

/-! ## Concrete sample states used by witnesses -/

/-- A concrete two-node stack whose last handle has been released. -/
def teardownSample : InnerStack Nat where
  head := [StackNode.init_with 1, StackNode.init_with 2]
  sem := InnerSemaphore.init_with 1 1
  ref_count := 0

/-- A concrete cell state with a revision in flight: the current pointer
(address 1) no longer equals the settled-previous pointer (address 0). -/
def rcuBusySample : InnerRcu Nat where
  ref_count := 1
  num_reads := 0
  state := NEW_EPOCH_INIT
  cur_alloc := 1
  prev_alloc := 0
  heap := fun a =>
    if a = 0 then some { ref_count := 1, data := some 7 }
    else if a = 1 then some { ref_count := 1, data := some 8 }
    else none
  next_addr := 2

/-! ## Semaphore theorems -/

/-- A completed `wait` needs a positive count and decrements it. -/
theorem InnerSemaphore.wait_eq_some {s t : InnerSemaphore} (h : s.wait = some t) :
    0 < s.count ∧ t.count = s.count - 1 ∧ t.max_count = s.max_count := by
  unfold InnerSemaphore.wait at h
  by_cases hc : s.count = 0
  · rw [if_pos hc] at h
    exact absurd h (by simp)
  · rw [if_neg hc] at h
    injection h with h
    subst h
    exact ⟨Nat.pos_of_ne_zero hc, rfl, rfl⟩

/-- A completed `signal` checked `count < max_count` and incremented. -/
theorem InnerSemaphore.signal_eq_some {s t : InnerSemaphore} (h : s.signal = some t) :
    s.count < s.max_count ∧ t.count = s.count + 1 ∧ t.max_count = s.max_count := by
  unfold InnerSemaphore.signal at h
  by_cases hc : s.count < s.max_count
  · rw [if_pos hc] at h
    injection h with h
    subst h
    exact ⟨hc, rfl, rfl⟩
  · rw [if_neg hc] at h
    exact absurd h (by simp)

/-- One completed semaphore operation preserves `count ≤ max_count`. -/
theorem semStep_bounded {s t : InnerSemaphore} {op : SemOp}
    (hinv : s.count ≤ s.max_count) (h : semStep s op = some t) :
    t.count ≤ t.max_count := by
  cases op with
  | wait =>
    obtain ⟨_, hct, hmx⟩ := InnerSemaphore.wait_eq_some h
    rw [hct, hmx]
    exact Nat.le_trans (Nat.sub_le _ _) hinv
  | signal =>
    obtain ⟨hlt, hct, hmx⟩ := InnerSemaphore.signal_eq_some h
    rw [hct, hmx]
    exact Nat.succ_le_of_lt hlt

/-- A completed run of semaphore operations preserves `count ≤ max_count`. -/
theorem semRun_bounded {s t : InnerSemaphore} {ops : List SemOp}
    (hinv : s.count ≤ s.max_count) (h : semRun s ops = some t) :
    t.count ≤ t.max_count := by
  induction ops generalizing s with
  | nil =>
    unfold semRun at h
    injection h with h
    subst h
    exact hinv
  | cons op ops ih =>
    unfold semRun at h
    cases hstep : semStep s op with
    | none => rw [hstep] at h; exact absurd h (by simp)
    | some u =>
      rw [hstep] at h
      exact ih (semStep_bounded hinv hstep) h

/-- C3: for every semaphore constructed with the preconditions met
(`0 < max_count`, `initial ≤ max_count`) and every sequence of completed
`wait()`/`signal()` operations, the counter stays in `[0, max_count]`
(the lower bound is the `Nat` model); a completed `wait()` only ever
decrements a strictly positive count, and a completed `signal()` never
leaves the count above `max_count`. -/
theorem sem_count_always_bounded (m i : Nat) (s s2 tw ts : InnerSemaphore)
    (ops : List SemOp) (hm : 0 < m) (hi : i ≤ m) (hs : s.count ≤ s.max_count) :
    (Semaphore.new m = some (InnerSemaphore.new m) ∧
      (InnerSemaphore.new m).count ≤ (InnerSemaphore.new m).max_count) ∧
    (Semaphore.init_with m i = some (InnerSemaphore.init_with m i) ∧
      (InnerSemaphore.init_with m i).count ≤ (InnerSemaphore.init_with m i).max_count) ∧
    (semRun s ops = some s2 → s2.count ≤ s2.max_count) ∧
    (s.wait = some tw → 0 < s.count ∧ tw.count = s.count - 1 ∧ tw.count ≤ tw.max_count) ∧
    (s.signal = some ts → ts.count ≤ ts.max_count) := by
  refine ⟨⟨?_, Nat.le_refl m⟩, ⟨?_, hi⟩, fun h => semRun_bounded hs h, fun h => ?_, fun h => ?_⟩
  · unfold Semaphore.new
    rw [if_pos hm]
  · unfold Semaphore.init_with
    rw [if_pos hm, if_pos hi]
  · obtain ⟨hpos, hct, hmx⟩ := InnerSemaphore.wait_eq_some h
    refine ⟨hpos, hct, ?_⟩
    rw [hct, hmx]
    exact Nat.le_trans (Nat.sub_le _ _) hs
  · exact @semStep_bounded s ts SemOp.signal hs h

/-- Witness for `sem_count_always_bounded` at concrete inputs. -/
theorem sem_count_always_bounded_witness :
    (Semaphore.new 2 = some (InnerSemaphore.new 2) ∧
      (InnerSemaphore.new 2).count ≤ (InnerSemaphore.new 2).max_count) ∧
    (Semaphore.init_with 2 1 = some (InnerSemaphore.init_with 2 1) ∧
      (InnerSemaphore.init_with 2 1).count ≤ (InnerSemaphore.init_with 2 1).max_count) ∧
    (semRun (InnerSemaphore.init_with 2 1) [SemOp.wait, SemOp.signal] =
        some (InnerSemaphore.init_with 2 1) →
      (InnerSemaphore.init_with 2 1).count ≤ (InnerSemaphore.init_with 2 1).max_count) ∧
    ((InnerSemaphore.init_with 2 1).wait = some (InnerSemaphore.init_with 2 0) →
      0 < (InnerSemaphore.init_with 2 1).count ∧
      (InnerSemaphore.init_with 2 0).count = (InnerSemaphore.init_with 2 1).count - 1 ∧
      (InnerSemaphore.init_with 2 0).count ≤ (InnerSemaphore.init_with 2 0).max_count) ∧
    ((InnerSemaphore.init_with 2 1).signal = some (InnerSemaphore.init_with 2 2) →
      (InnerSemaphore.init_with 2 2).count ≤ (InnerSemaphore.init_with 2 2).max_count) :=
  sem_count_always_bounded 2 1 (InnerSemaphore.init_with 2 1) (InnerSemaphore.init_with 2 1)
    (InnerSemaphore.init_with 2 0) (InnerSemaphore.init_with 2 2)
    [SemOp.wait, SemOp.signal] (by decide) (by decide) (by decide)

/-- C5: each of the three semaphore precondition violations — construction
with `max_count == 0`, construction with an initial count exceeding
`max_count`, and a `signal()` whose loaded count already equals
`max_count` — hits an `assert!` and panics (modeled as `none`): the call
never returns a state, so the violation cannot be handled as a recoverable
return value. -/
theorem sem_precondition_violations_fatal (m i : Nat) (s : InnerSemaphore)
    (hi : m < i) (hs : s.max_count ≤ s.count) :
    Semaphore.new 0 = none ∧ Semaphore.init_with m i = none ∧ s.signal = none := by
  refine ⟨rfl, ?_, ?_⟩
  · unfold Semaphore.init_with
    by_cases hm : 0 < m
    · rw [if_pos hm, if_neg (Nat.not_le_of_lt hi)]
    · rw [if_neg hm]
  · unfold InnerSemaphore.signal
    rw [if_neg (Nat.not_lt_of_le hs)]

/-- Witness for `sem_precondition_violations_fatal` at concrete inputs. -/
theorem sem_precondition_violations_fatal_witness :
    Semaphore.new 0 = none ∧ Semaphore.init_with 1 2 = none ∧
      (InnerSemaphore.new 2).signal = none :=
  sem_precondition_violations_fatal 1 2 (InnerSemaphore.new 2) (by decide) (by decide)

/-! ## Shared-handle refcounting theorems -/

/-- `n` clones raise the shared refcount by `n` and destroy nothing. -/
theorem SemaphoreShared.cloneN_eq (s : SemaphoreShared) (n : Nat) :
    s.cloneN n =
      { s with inner := { s.inner with ref_count := s.inner.ref_count + n } } := by
  induction n with
  | zero => simp [SemaphoreShared.cloneN]
  | succ k ih =>
    unfold SemaphoreShared.cloneN at ih ⊢
    rw [Function.iterate_succ_apply', ih]
    simp [SemaphoreShared.clone, Nat.add_assoc]

/-- As long as more releases remain than performed, each release only
decrements the refcount and never destroys the state. -/
theorem SemaphoreShared.dropN_live (k : Nat) (s : SemaphoreShared)
    (h : k < s.inner.ref_count) :
    s.dropN k =
      { s with inner := { s.inner with ref_count := s.inner.ref_count - k } } := by
  induction k generalizing s with
  | zero => simp [SemaphoreShared.dropN]
  | succ j ih =>
    unfold SemaphoreShared.dropN at ih ⊢
    rw [Function.iterate_succ_apply]
    have href : s.inner.ref_count ≠ 1 := by omega
    have hdrop : s.drop = { s with inner := { s.inner with ref_count := s.inner.ref_count - 1 } } := by
      unfold SemaphoreShared.drop
      rw [if_neg href]
    rw [hdrop, ih]
    · simp
      omega
    · simp
      omega

/-- C7: cloning a handle `N` times then releasing all `N + 1` handles
destroys the shared state exactly once, on the single release that observes
the refcount go from 1 to 0; after any `k ≤ N` of the releases the state
has never been destroyed. -/
theorem handle_destroyed_exactly_once (m N k : Nat) (hk : k ≤ N) :
    (((SemaphoreShared.init m).cloneN N).dropN k).destroyed = 0 ∧
    (((SemaphoreShared.init m).cloneN N).dropN (N + 1)).destroyed = 1 ∧
    (((SemaphoreShared.init m).cloneN N).dropN (N + 1)).inner.ref_count = 0 := by
  have hclone : (SemaphoreShared.init m).cloneN N =
      { inner := { count := m, ref_count := 1 + N, max_count := m }, destroyed := 0 } := by
    rw [SemaphoreShared.cloneN_eq]
    rfl
  have hlive : (((SemaphoreShared.init m).cloneN N).dropN N) =
      { inner := { count := m, ref_count := 1, max_count := m }, destroyed := 0 } := by
    rw [hclone, SemaphoreShared.dropN_live N _ (by show N < 1 + N; omega)]
    simp
  refine ⟨?_, ?_, ?_⟩
  · rw [hclone, SemaphoreShared.dropN_live k _ (by show k < 1 + N; omega)]
  · unfold SemaphoreShared.dropN
    rw [Function.iterate_succ_apply']
    have := hlive
    unfold SemaphoreShared.dropN at this
    rw [this]
    rfl
  · unfold SemaphoreShared.dropN
    rw [Function.iterate_succ_apply']
    have := hlive
    unfold SemaphoreShared.dropN at this
    rw [this]
    rfl

/-- Witness for `handle_destroyed_exactly_once` at concrete inputs. -/
theorem handle_destroyed_exactly_once_witness :
    (((SemaphoreShared.init 3).cloneN 2).dropN 1).destroyed = 0 ∧
    (((SemaphoreShared.init 3).cloneN 2).dropN 3).destroyed = 1 ∧
    (((SemaphoreShared.init 3).cloneN 2).dropN 3).inner.ref_count = 0 :=
  handle_destroyed_exactly_once 3 2 1 (by decide)

/-! ## Stack theorems -/

/-- With the guard available (binary semaphore, count 1), `push` completes
and links the new node as the head, returning the guard to its unlocked
state. -/
theorem InnerStack.push_ready {T : Type} (s : InnerStack T) (v : T)
    (hc : s.sem.count = 1) (hm : s.sem.max_count = 1) :
    s.push v = some { s with head := StackNode.init_with v :: s.head } := by
  cases s with
  | mk head sem rc =>
    cases sem with
    | mk c src smx =>
      dsimp only at hc hm
      subst hc
      subst hm
      rfl

/-- With the guard available, a sequence of `push` calls completes and
prepends the nodes in reverse order. -/
theorem InnerStack.pushList_ready {T : Type} (l : List T) (s : InnerStack T)
    (hc : s.sem.count = 1) (hm : s.sem.max_count = 1) :
    s.pushList l =
      some { s with head := (l.map StackNode.init_with).reverse ++ s.head } := by
  induction l generalizing s with
  | nil =>
    simp [InnerStack.pushList]
  | cons v vs ih =>
    rw [InnerStack.pushList, InnerStack.push_ready s v hc hm]
    dsimp only
    rw [ih { s with head := StackNode.init_with v :: s.head } hc hm]
    simp

/-- With the guard available and a nonempty chain, `pop` unlinks the head
node and returns its payload. -/
theorem InnerStack.pop_ready_cons {T : Type} (s : InnerStack T) (nd : StackNode T)
    (rest : List (StackNode T)) (hh : s.head = nd :: rest)
    (hc : s.sem.count = 1) (hm : s.sem.max_count = 1) :
    s.pop = some (nd.data, { s with head := rest }) := by
  cases s with
  | mk head sem rc =>
    cases sem with
    | mk c src smx =>
      dsimp only at hh hc hm
      subst hh
      subst hc
      subst hm
      rfl

/-- Popping once per node of the chain returns the payloads in chain
order. -/
theorem InnerStack.popAll_ready {T : Type} (nds : List (StackNode T))
    (s : InnerStack T) (hh : s.head = nds)
    (hc : s.sem.count = 1) (hm : s.sem.max_count = 1) :
    InnerStack.popAll nds.length s = some (nds.map StackNode.data) := by
  induction nds generalizing s with
  | nil => rfl
  | cons nd rest ih =>
    rw [List.length_cons, InnerStack.popAll, InnerStack.pop_ready_cons s nd rest hh hc hm]
    dsimp only
    rw [ih { s with head := rest } rfl hc hm]
    rfl

/-- LIFO behavior of a fresh stack: pushing the values of `l` in order and
then popping once per value returns exactly the values of `l`, reversed. -/
theorem stack_lifo_general {T : Type} (l : List T) :
    (InnerStack.pushList (InnerStack.new : InnerStack T) l).bind
      (fun t => InnerStack.popAll l.length t) = some (l.reverse.map some) := by
  rw [InnerStack.pushList_ready l InnerStack.new rfl rfl]
  show InnerStack.popAll l.length _ = _
  have hlen : l.length = ((l.map StackNode.init_with).reverse).length := by
    simp
  rw [hlen, InnerStack.popAll_ready _ _ (by simp [InnerStack.new]) rfl rfl]
  simp [StackNode.init_with]

/-- C4: a single-threaded `GuardedStack` is strictly LIFO: for every list of
pushed values, popping once per push returns the values most-recent-first
(the push order reversed), each exactly once; in particular pushing
`0..100` and popping 100 times yields `99, 98, ..., 0`. -/
theorem stack_strict_lifo {T : Type} (l : List T) :
    ((InnerStack.pushList (InnerStack.new : InnerStack T) l).bind
      (fun t => InnerStack.popAll l.length t) = some (l.reverse.map some)) ∧
    ((InnerStack.pushList (InnerStack.new : InnerStack Nat) (List.range 100)).bind
      (fun t => InnerStack.popAll 100 t) = some ((List.range 100).reverse.map some)) :=
  ⟨stack_lifo_general l, by
    have h := stack_lifo_general (List.range 100)
    simpa using h⟩

/-- Each node of the chain is counted (freed) exactly once by the teardown
walk. -/
theorem drainCount_eq_length {T : Type} (l : List (StackNode T)) :
    drainCount l = l.length := by
  induction l with
  | nil => rfl
  | cons nd rest ih => rw [drainCount, ih, List.length_cons]

/-- C8: the `InnerStack` destructor runs only when the asserted refcount is
zero (otherwise the assertion is a fatal panic, modeled as `none`), and its
iterative walk then frees exactly one node per remaining chain element,
terminating for every finite chain. -/
theorem stack_teardown_drains {T : Type} (s : InnerStack T) :
    (s.ref_count = 0 → s.dropSelf = some s.head.length) ∧
    (s.ref_count ≠ 0 → s.dropSelf = none) := by
  constructor
  · intro h
    unfold InnerStack.dropSelf
    rw [if_pos h, drainCount_eq_length]
  · intro h
    unfold InnerStack.dropSelf
    rw [if_neg h]

/-- Witness for `stack_teardown_drains` at a concrete two-node stack. -/
theorem stack_teardown_drains_witness :
    InnerStack.dropSelf teardownSample = some 2 :=
  (stack_teardown_drains teardownSample).1 rfl

/-- C9: `pop()` on a stack whose head is empty completes normally and
returns the empty indicator `None`, leaving the stack exactly as it was;
emptiness is a recoverable outcome, not a failure. -/
theorem stack_pop_empty_returns_none {T : Type} (s : InnerStack T)
    (hh : s.head = []) (hc : s.sem.count = 1) (hm : s.sem.max_count = 1) :
    s.pop = some (none, s) := by
  cases s with
  | mk head sem rc =>
    cases sem with
    | mk c src smx =>
      dsimp only at hh hc hm
      subst hh
      subst hc
      subst hm
      rfl

/-- Witness for `stack_pop_empty_returns_none` on a fresh stack. -/
theorem stack_pop_empty_returns_none_witness :
    (InnerStack.new : InnerStack Nat).pop = some (none, InnerStack.new) :=
  stack_pop_empty_returns_none (InnerStack.new : InnerStack Nat) rfl rfl rfl

/-! ## VersionedCell theorems -/

/-- A freshly constructed cell is quiescent and holds its initial value. -/
theorem InnerRcu.new_ready {T : Type} (v : T) : RcuReady (InnerRcu.new v) v :=
  ⟨rfl, rfl, rfl, Nat.zero_lt_one, rfl⟩

/-- From a quiescent state the revision CAS wins: `update` succeeds and the
cell is quiescent again, holding the new value. -/
theorem InnerRcu.update_ready {T : Type} {s : InnerRcu T} {v : T} (h : RcuReady s v)
    (w : T) :
    (s.update w).1 = Except.ok () ∧ RcuReady (s.update w).2 w := by
  obtain ⟨hcp, hst, hnr, hlt, hheap⟩ := h
  have hne : s.next_addr ≠ s.prev_alloc := by omega
  simp only [InnerRcu.update, if_pos hcp]
  refine ⟨trivial, ?_⟩
  unfold RcuReady
  dsimp only
  refine ⟨rfl, rfl, hnr, Nat.lt_succ_self _, ?_⟩
  rw [if_neg hne, if_pos rfl]

/-- Reading a quiescent cell returns a copy of the current value and leaves
the whole cell state unchanged. -/
theorem InnerRcu.read_ready {T : Type} {s : InnerRcu T} {v : T} (h : RcuReady s v) :
    s.read = (some v, s) := by
  obtain ⟨hcp, hst, hnr, hlt, hheap⟩ := h
  cases s with
  | mk rc nr st cur prev heap next =>
    dsimp only at hcp hst hnr hlt hheap
    subst hcp
    subst hst
    subst hnr
    have hfalse : ¬((0 : Nat) + 1 = 1 ∧ DEFAULT = NEW_EPOCH_INIT) := by decide
    have hfun : (fun b => if b = cur then dropNode (if b = cur then bumpNode (heap b) else heap b)
        else if b = cur then bumpNode (heap b) else heap b) = heap := by
      funext b
      by_cases hb : b = cur
      · subst hb
        rw [if_pos rfl, if_pos rfl, hheap]
        rfl
      · rw [if_neg hb, if_neg hb]
    unfold InnerRcu.read
    simp only [if_neg hfalse, hfun, hheap, Option.some_bind, Nat.add_sub_cancel]
    simp [DEFAULT, NEW_EPOCH_INIT]

/-- From a quiescent state, every update in a sequence succeeds and the cell
ends quiescent holding the last value of the sequence. -/
theorem InnerRcu.runUpdates_ready {T : Type} (vs : List T) (s : InnerRcu T) (v : T)
    (h : RcuReady s v) :
    InnerRcu.updatesOk s vs ∧ RcuReady (InnerRcu.runUpdates s vs) (vs.getLastD v) := by
  induction vs generalizing s v with
  | nil => exact ⟨trivial, h⟩
  | cons w ws ih =>
    obtain ⟨hok, hready⟩ := InnerRcu.update_ready h w
    obtain ⟨hoks, hfin⟩ := ih (s.update w).2 w hready
    refine ⟨⟨hok, hoks⟩, ?_⟩
    show RcuReady (InnerRcu.runUpdates (s.update w).2 ws) ((w :: ws).getLastD v)
    rw [List.getLastD_cons]
    exact hfin

/-- C1: starting from `construct(v0)`, a single-threaded sequence of
`update(v1) ... update(vn)` calls all succeeds, and a subsequent `read()`
returns the most recent value (`vn`, or `v0` for the empty sequence) while
leaving the cell state unchanged — so repeated reads keep returning it
until the next successful update. -/
theorem rcu_read_returns_latest_update {T : Type} (v0 : T) (vs : List T) :
    InnerRcu.updatesOk (InnerRcu.new v0) vs ∧
    (InnerRcu.runUpdates (InnerRcu.new v0) vs).read =
      (some (vs.getLastD v0), InnerRcu.runUpdates (InnerRcu.new v0) vs) := by
  obtain ⟨hok, hready⟩ :=
    InnerRcu.runUpdates_ready vs (InnerRcu.new v0) v0 (InnerRcu.new_ready v0)
  exact ⟨hok, InnerRcu.read_ready hready⟩

/-- C2: whenever another revision is in flight (the current pointer no
longer equals the loaded previous pointer), `update(v)` fails and the
failing call returns exactly the caller's own value `v` as the rejection:
the value is never silently dropped. -/
theorem rcu_rejected_update_returns_value {T : Type} (s : InnerRcu T) (v : T)
    (h : s.cur_alloc ≠ s.prev_alloc) :
    (s.update v).1 = Except.error v := by
  simp only [InnerRcu.update, if_neg h]

/-- Witness for `rcu_rejected_update_returns_value` at a concrete busy
cell. -/
theorem rcu_rejected_update_returns_value_witness :
    (rcuBusySample.update 5).1 = Except.error 5 :=
  rcu_rejected_update_returns_value rcuBusySample 5 (by decide)

/-- C6: the invariant `phase == Idle ⇔ current == previous` holds after
construction and is preserved by every completed `read()` and every
completed `update()`, successful or rejected. -/
theorem rcu_phase_idle_iff_no_revision {T : Type} (v w : T) (s : InnerRcu T)
    (h : PhaseInv s) :
    PhaseInv (InnerRcu.new v) ∧ PhaseInv (s.read).2 ∧ PhaseInv (s.update w).2 := by
  refine ⟨⟨fun _ => rfl, fun _ => rfl⟩, ?_, ?_⟩
  · unfold PhaseInv at h ⊢
    by_cases hcond : s.num_reads + 1 = 1 ∧ s.state = NEW_EPOCH_INIT
    · simp only [InnerRcu.read, if_pos hcond]
      constructor
      · intro h3
        exact absurd h3 (by decide)
      · intro hcpeq
        have h0 := h.mpr hcpeq
        rw [hcond.2] at h0
        exact absurd h0 (by decide)
    · simp only [InnerRcu.read, if_neg hcond]
      exact h
  · unfold PhaseInv at h ⊢
    by_cases hcp : s.cur_alloc = s.prev_alloc
    · simp only [InnerRcu.update, if_pos hcp]
    · simp only [InnerRcu.update, if_neg hcp]
      exact h

/-- Witness for `rcu_phase_idle_iff_no_revision` at a fresh cell. -/
theorem rcu_phase_idle_iff_no_revision_witness :
    PhaseInv (InnerRcu.new (1 : Nat)) ∧
    PhaseInv ((InnerRcu.new (0 : Nat)).read).2 ∧
    PhaseInv ((InnerRcu.new (0 : Nat)).update 2).2 :=
  rcu_phase_idle_iff_no_revision 1 2 (InnerRcu.new 0) ⟨fun _ => rfl, fun _ => rfl⟩

/-- C10: a rejected `update(v)` leaves the cell's observable state
untouched: the current-generation pointer, the settled-previous pointer, the
phase tag and the outstanding-reader counter are identical before and after
the failed call. -/
theorem rcu_rejected_update_preserves_state {T : Type} (s : InnerRcu T) (v : T)
    (h : s.cur_alloc ≠ s.prev_alloc) :
    (s.update v).2.cur_alloc = s.cur_alloc ∧ (s.update v).2.prev_alloc = s.prev_alloc ∧
    (s.update v).2.state = s.state ∧ (s.update v).2.num_reads = s.num_reads := by
  simp [InnerRcu.update, if_neg h]

/-- Witness for `rcu_rejected_update_preserves_state` at a concrete busy
cell. -/
theorem rcu_rejected_update_preserves_state_witness :
    (rcuBusySample.update 5).2.cur_alloc = rcuBusySample.cur_alloc ∧
    (rcuBusySample.update 5).2.prev_alloc = rcuBusySample.prev_alloc ∧
    (rcuBusySample.update 5).2.state = rcuBusySample.state ∧
    (rcuBusySample.update 5).2.num_reads = rcuBusySample.num_reads :=
  rcu_rejected_update_preserves_state rcuBusySample 5 (by decide)
